import Mathlib

/-!
Verification development for the Grand Challenge algorithm-API tutorial
client (`tutorials/GC_algorithm_API.py`).

The Python source is shallowly embedded:
* `ThrottledRetries` (the capped exponential-backoff retry iterator) becomes
  a policy structure plus an explicit generator state (`RetryGen`) whose
  `step` mirrors the generator body of `__iter__`;
* the two polling loops of `GrandChallengeAlgorithm.run` become recursive
  functions over an environment that supplies, per attempt, the outcome of
  the remote fetch (transient I/O error or a structured response);
* `_download_results` becomes a recursive function that returns both the
  result (normal return vs. the `ValueError` for a bad extension) and the
  ordered trace of I/O events (network fetches, directory creation, file
  truncation, writes) it performed;
* Python float arithmetic `interval * 1.5 ** n` is embedded exactly over ℚ
  (for the parameters used here, `interval = 15`, `n < 25`, the float
  computation is exact, so the rational model coincides with the source);
  `int(x)` is embedded as truncation toward zero.
-/

set_option autoImplicit false

/-- The `ThrottledRetries` policy object: `__init__` stores `attempts` and
`interval` (both typed `int` in the source) and nothing else. -/
structure ThrottledRetries where
  attempts : Nat
  interval : ℤ
deriving Repr, DecidableEq

/-- The sleep performed before yielding index `n > 0`:
`min(self.interval * 1.5 ** n, 300)` from `__iter__`. -/
def ThrottledRetries.delay (p : ThrottledRetries) (n : Nat) : ℚ :=
  min ((p.interval : ℚ) * (3 / 2) ^ n) 300

/-- State of one generator produced by calling `__iter__` on a policy:
the loop variable `n` of `for n in range(self.attempts)` together with the
(immutable) policy it ranges over. -/
structure RetryGen where
  policy : ThrottledRetries
  next : Nat
deriving Repr, DecidableEq

/-- `iter(policy)`: Python's `for` statement calls `__iter__`, which is a
generator function, so every call returns a fresh generator starting at
`n = 0`. The policy object itself is never mutated. -/
def ThrottledRetries.iter (p : ThrottledRetries) : RetryGen :=
  ⟨p, 0⟩

/-- One resumption of the generator: if `n < attempts` it yields
`(sleep?, n)` - where `sleep?` is the delay slept before the yield
(`none` for `n = 0`) - and advances to `n + 1`; otherwise the generator is
exhausted and simply ends (`none`), raising nothing. -/
def RetryGen.step (g : RetryGen) : Option ((Option ℚ) × Nat × RetryGen) :=
  if g.next < g.policy.attempts then
    some (if 0 < g.next then some (g.policy.delay g.next) else none,
          g.next, ⟨g.policy, g.next + 1⟩)
  else
    none

/-- Drive a generator to exhaustion (with fuel, which `attempts` always
bounds), collecting the list of `(sleep?, index)` events it produces. -/
def RetryGen.run : Nat → RetryGen → List (Option ℚ × Nat)
  | 0, _ => []
  | fuel + 1, g =>
    match g.step with
    | none => []
    | some (s, n, g') => (s, n) :: RetryGen.run fuel g'

/-- The full event sequence of one `for _ in policy` loop. -/
def iterEvents (p : ThrottledRetries) : List (Option ℚ × Nat) :=
  RetryGen.run p.attempts p.iter

/-- The event a `ThrottledRetries` generator produces at index `n`. -/
def retryEvent (p : ThrottledRetries) (n : Nat) : Option ℚ × Nat :=
  (if 0 < n then some (p.delay n) else none, n)

theorem RetryGen.run_closed (p : ThrottledRetries) :
    ∀ (fuel k : Nat), p.attempts - k ≤ fuel →
      RetryGen.run fuel ⟨p, k⟩ =
        (List.range' k (p.attempts - k)).map (retryEvent p) := by
  intro fuel
  induction fuel with
  | zero =>
    intro k hk
    have h : p.attempts - k = 0 := Nat.le_zero.mp hk
    simp [RetryGen.run, h]
  | succ fuel ih =>
    intro k hk
    by_cases hlt : k < p.attempts
    · have hsub : p.attempts - k = (p.attempts - (k + 1)) + 1 := by omega
      have hfuel : p.attempts - (k + 1) ≤ fuel := by omega
      rw [hsub, List.range'_succ]
      simp only [RetryGen.run, RetryGen.step, hlt, if_true, List.map_cons]
      rw [ih (k + 1) hfuel]
      rfl
    · have h : p.attempts - k = 0 := by omega
      simp [RetryGen.run, RetryGen.step, hlt, h]

theorem iterEvents_closed (p : ThrottledRetries) :
    iterEvents p = (List.range p.attempts).map (retryEvent p) := by
  have h := RetryGen.run_closed p p.attempts 0 (by omega)
  simpa [iterEvents, ThrottledRetries.iter, List.range_eq_range'] using h

/-- **C1.** For every policy with `attempts = N ≥ 1` and `interval = I`:
iterating yields exactly the indices `0, 1, …, N-1` in order; the event at
each index `n > 0` carries a sleep of exactly `min(I * 1.5^n, 300)`
seconds; index `0` is yielded with no preceding sleep; and once all `N`
indices are consumed the generator's next resumption is plain exhaustion
(`none`), not an error. -/
theorem throttledRetries_spec (N : Nat) (I : ℤ) (hN : 1 ≤ N) :
    ((iterEvents ⟨N, I⟩).map Prod.snd = List.range N) ∧
    ((iterEvents ⟨N, I⟩).head? = some (none, 0)) ∧
    (∀ n : Nat, 0 < n → n < N →
      (iterEvents ⟨N, I⟩)[n]? =
        some (some (min ((I : ℚ) * (3 / 2) ^ n) 300), n)) ∧
    (RetryGen.step ⟨⟨N, I⟩, N⟩ = none) := by
  refine ⟨?_, ?_, ?_, ?_⟩
  · rw [iterEvents_closed]
    simp [retryEvent, Function.comp_def]
  · rw [iterEvents_closed]
    cases N with
    | zero => omega
    | succ m =>
      rw [List.range_succ_eq_map]
      simp [retryEvent]
  · intro n hn hnN
    rw [iterEvents_closed]
    rw [List.getElem?_map, List.getElem?_range hnN]
    simp [retryEvent, hn, ThrottledRetries.delay]
  · simp [RetryGen.step]

/-- Witness for C1 at `N = 3`, `I = 2`. -/
theorem throttledRetries_spec_witness :
    (1 ≤ 3) ∧
    ((iterEvents ⟨3, 2⟩).map Prod.snd = List.range 3) ∧
    ((iterEvents ⟨3, 2⟩).head? = some (none, 0)) ∧
    ((iterEvents ⟨3, 2⟩)[2]? =
      some (some (min ((2 : ℚ) * (3 / 2) ^ 2) 300), 2)) ∧
    (RetryGen.step ⟨⟨3, 2⟩, 3⟩ = none) := by
  have h := throttledRetries_spec 3 2 (by decide)
  exact ⟨by decide, h.1, h.2.1, h.2.2.1 2 (by decide) (by decide), h.2.2.2⟩

/-- The indices one `for _ in policy` loop receives. -/
def forLoopIndices (p : ThrottledRetries) : List Nat :=
  ((p.iter).run p.attempts).map Prod.snd

/-- The driver's two polling phases: `run` executes `for _ in self.retries`
twice over the single policy instance stored at construction. Each `for`
statement calls `iter` on the (unchanged) policy object, so each phase
drives its own fresh generator; the pair records the indices each phase
receives, the second phase running after the first has been fully
consumed. -/
def driverPhaseIndices (p : ThrottledRetries) : List Nat × List Nat :=
  (((p.iter).run p.attempts).map Prod.snd,
   ((p.iter).run p.attempts).map Prod.snd)

theorem forLoopIndices_eq_range (p : ThrottledRetries) :
    forLoopIndices p = List.range p.attempts := by
  unfold forLoopIndices
  have h : (p.iter).run p.attempts = iterEvents p := rfl
  rw [h, iterEvents_closed]
  simp [retryEvent, Function.comp_def]

/-- **C3-counterexample.** The claim asserts that iterating the driver's
already-consumed policy object (25 attempts, 15 s interval) a second time
does not produce the full sequence of 25 indices again. It does: after the
first phase consumes the policy in full, the second phase again receives
all of `0, …, 24`, because each `for` statement obtains a fresh generator
from `__iter__`. -/
theorem retries_second_iteration_full :
    (driverPhaseIndices ⟨25, 15⟩).1 = List.range 25 ∧
    (driverPhaseIndices ⟨25, 15⟩).2 = List.range 25 := by
  have h := forLoopIndices_eq_range ⟨25, 15⟩
  exact ⟨h, h⟩

/-- **C3 (amended).** Iterating the same policy object a second time, after
it has been fully consumed once, again produces the full sequence of `N`
indices - the policy object is stateless and every `for` statement gets a
fresh generator from `__iter__` - and the driver indeed consumes its single
policy instance twice, once per polling phase, each phase receiving all
`N` indices. -/
theorem retries_reiteration (p : ThrottledRetries) (h : 1 ≤ p.attempts) :
    (driverPhaseIndices p).1 = List.range p.attempts ∧
    (driverPhaseIndices p).2 = List.range p.attempts ∧
    (driverPhaseIndices p).2 ≠ [] := by
  have hr := forLoopIndices_eq_range p
  refine ⟨hr, hr, ?_⟩
  rw [forLoopIndices] at hr
  show ((p.iter).run p.attempts).map Prod.snd ≠ []
  rw [hr]
  intro hc
  rw [List.range_eq_nil] at hc
  omega

/-- Witness for the amended C3 at the driver's actual policy `⟨25, 15⟩`. -/
theorem retries_reiteration_witness :
    (1 ≤ (25 : Nat)) ∧
    (driverPhaseIndices ⟨25, 15⟩).1 = List.range 25 ∧
    (driverPhaseIndices ⟨25, 15⟩).2 = List.range 25 ∧
    (driverPhaseIndices ⟨25, 15⟩).2 ≠ [] := by
  have h := retries_reiteration ⟨25, 15⟩ (by decide)
  exact ⟨by decide, h.1, h.2.1, h.2.2⟩

/-- Outcome of one `raw_image_upload_sessions.detail(session["pk"])` call
inside the import-polling loop: either the call raises `IOError`, or it
returns session details carrying a `status` string and the `image_set`
list of image URLs. -/
inductive ImportFetch where
  | ioError : ImportFetch
  | detail (status : String) (imageSet : List String) : ImportFetch
deriving Repr, DecidableEq

/-- Outcome of the nested `self.client(url=image_url)` resolution call:
`IOError` (treated as transient) or the image details with their `pk`. -/
inductive ResolveResult where
  | ioError : ResolveResult
  | ok (pk : String) : ResolveResult
deriving Repr, DecidableEq

/-- The remote side of the import-polling loop: what the session-detail
fetch returns at each attempt, and what resolving an image URL returns at
each attempt. -/
structure ImportEnv where
  fetch : Nat → ImportFetch
  resolve : Nat → String → ResolveResult

/-- How the import-polling loop in `run` terminates. `rejected` is the
`RuntimeError('Algorithm … could not be started')` raised on status
`Failed`/`Cancelled`; `notImported` is the distinct
`RuntimeError('Uploaded image could not be imported, not a valid image?')`
raised when `image_set[0]` raises `IndexError`; `success pk` is the
loop's `break` with `image_uuid = pk`; `timeout` is the `TimeoutError`
raised by the loop's `else` clause on exhaustion. -/
inductive ImportOutcome where
  | rejected : ImportOutcome
  | notImported : ImportOutcome
  | success (pk : String) : ImportOutcome
  | timeout : ImportOutcome
deriving Repr, DecidableEq

/-- The import-polling loop body of `run`, one constructor case per path
through the `try`/`except`/`if` chain, returning the outcome together
with the number of retry slots consumed (loop iterations begun). `fuel`
is the number of attempts the retry iterator still offers; `i` is the
current attempt index. -/
def importGo (env : ImportEnv) : Nat → Nat → ImportOutcome × Nat
  | 0, _ => (ImportOutcome.timeout, 0)
  | fuel + 1, i =>
    match env.fetch i with
    | ImportFetch.ioError =>
      let r := importGo env fuel (i + 1)
      (r.1, r.2 + 1)
    | ImportFetch.detail status imageSet =>
      if status = "Failed" ∨ status = "Cancelled" then
        (ImportOutcome.rejected, 1)
      else if status = "Succeeded" then
        match imageSet with
        | [] => (ImportOutcome.notImported, 1)
        | url :: _ =>
          match env.resolve i url with
          | ResolveResult.ioError =>
            let r := importGo env fuel (i + 1)
            (r.1, r.2 + 1)
          | ResolveResult.ok pk => (ImportOutcome.success pk, 1)
      else
        let r := importGo env fuel (i + 1)
        (r.1, r.2 + 1)

/-- `for _ in self.retries: …` over the import-polling body, with the
`else: raise TimeoutError` on exhaustion. The driver's policy has
`attempts = 25`. -/
def importPoll (env : ImportEnv) (attempts : Nat) : ImportOutcome × Nat :=
  importGo env attempts 0

theorem importGo_ioError (env : ImportEnv) (fuel i : Nat)
    (h : env.fetch i = ImportFetch.ioError) :
    importGo env (fuel + 1) i =
      ((importGo env fuel (i + 1)).1, (importGo env fuel (i + 1)).2 + 1) := by
  simp [importGo, h]

theorem importGo_other (env : ImportEnv) (fuel i : Nat)
    (status : String) (imageSet : List String)
    (h : env.fetch i = ImportFetch.detail status imageSet)
    (h1 : status ≠ "Failed") (h2 : status ≠ "Cancelled")
    (h3 : status ≠ "Succeeded") :
    importGo env (fuel + 1) i =
      ((importGo env fuel (i + 1)).1, (importGo env fuel (i + 1)).2 + 1) := by
  simp [importGo, h, h1, h2, h3]

theorem importGo_rejected (env : ImportEnv) (fuel i : Nat)
    (status : String) (imageSet : List String)
    (h : env.fetch i = ImportFetch.detail status imageSet)
    (hs : status = "Failed" ∨ status = "Cancelled") :
    importGo env (fuel + 1) i = (ImportOutcome.rejected, 1) := by
  simp [importGo, h, hs]

theorem importGo_success (env : ImportEnv) (fuel i : Nat)
    (url pk : String) (rest : List String)
    (h : env.fetch i = ImportFetch.detail "Succeeded" (url :: rest))
    (hr : env.resolve i url = ResolveResult.ok pk) :
    importGo env (fuel + 1) i = (ImportOutcome.success pk, 1) := by
  simp [importGo, h, hr]

/-- **C4.** Import-status polling (25 attempts): if attempt 0 hits an
I/O error, attempt 1 sees status `"Queued"`, and attempt 2 sees status
`"Succeeded"` with a first image URL that resolves to `pk`, then the loop
exits with `success pk` having consumed exactly 3 retry slots; and if the
first poll reports `"Cancelled"` (or `"Failed"`), the remote-rejection
error is raised immediately, after exactly 1 poll. -/
theorem import_polling_scenarios (env envC envF : ImportEnv)
    (url pk : String) (qSet : List String) (rest cSet fSet : List String)
    (h0 : env.fetch 0 = ImportFetch.ioError)
    (h1 : env.fetch 1 = ImportFetch.detail "Queued" qSet)
    (h2 : env.fetch 2 = ImportFetch.detail "Succeeded" (url :: rest))
    (h3 : env.resolve 2 url = ResolveResult.ok pk)
    (hC : envC.fetch 0 = ImportFetch.detail "Cancelled" cSet)
    (hF : envF.fetch 0 = ImportFetch.detail "Failed" fSet) :
    importPoll env 25 = (ImportOutcome.success pk, 3) ∧
    importPoll envC 25 = (ImportOutcome.rejected, 1) ∧
    importPoll envF 25 = (ImportOutcome.rejected, 1) := by
  refine ⟨?_, ?_, ?_⟩
  · show importGo env 25 0 = (ImportOutcome.success pk, 3)
    rw [(by norm_num : (25 : Nat) = 24 + 1), importGo_ioError env 24 0 h0]
    rw [(by norm_num : (24 : Nat) = 23 + 1),
      importGo_other env 23 1 "Queued" qSet h1 (by decide) (by decide)
        (by decide)]
    rw [(by norm_num : (23 : Nat) = 22 + 1),
      importGo_success env 22 2 url pk rest h2 h3]
  · show importGo envC 25 0 = (ImportOutcome.rejected, 1)
    rw [(by norm_num : (25 : Nat) = 24 + 1),
      importGo_rejected envC 24 0 "Cancelled" cSet hC (Or.inr rfl)]
  · show importGo envF 25 0 = (ImportOutcome.rejected, 1)
    rw [(by norm_num : (25 : Nat) = 24 + 1),
      importGo_rejected envF 24 0 "Failed" fSet hF (Or.inl rfl)]

/-- A concrete environment realising the C4 success scenario. -/
def importEnvC4 : ImportEnv where
  fetch i :=
    if i = 0 then ImportFetch.ioError
    else if i = 1 then ImportFetch.detail "Queued" []
    else ImportFetch.detail "Succeeded" ["img-url-1"]
  resolve _ _ := ResolveResult.ok "pk-1"

/-- A concrete environment whose first poll reports `"Cancelled"`. -/
def importEnvCancelled : ImportEnv where
  fetch _ := ImportFetch.detail "Cancelled" []
  resolve _ _ := ResolveResult.ioError

/-- A concrete environment whose first poll reports `"Failed"`. -/
def importEnvFailed : ImportEnv where
  fetch _ := ImportFetch.detail "Failed" []
  resolve _ _ := ResolveResult.ioError

/-- Witness for C4 on concrete environments. -/
theorem import_polling_scenarios_witness :
    importPoll importEnvC4 25 = (ImportOutcome.success "pk-1", 3) ∧
    importPoll importEnvCancelled 25 = (ImportOutcome.rejected, 1) ∧
    importPoll importEnvFailed 25 = (ImportOutcome.rejected, 1) :=
  import_polling_scenarios importEnvC4 importEnvCancelled importEnvFailed
    ("img-url-1") "pk-1" [] [] [] []
    rfl rfl rfl rfl rfl rfl

/-- **C6.** If a poll in the import-status loop reports `"Succeeded"` but
the session's `image_set` is empty (`image_set[0]` raises `IndexError`),
the loop ends at once with the distinct "uploaded image could not be
imported" error: exactly the current retry slot is consumed, no further
slot is, and the outcome is neither the timeout nor the remote-rejection
error. -/
theorem import_empty_image_set (env : ImportEnv) (fuel i : Nat)
    (h : env.fetch i = ImportFetch.detail "Succeeded" []) :
    importGo env (fuel + 1) i = (ImportOutcome.notImported, 1) ∧
    ImportOutcome.notImported ≠ ImportOutcome.timeout ∧
    ImportOutcome.notImported ≠ ImportOutcome.rejected := by
  refine ⟨?_, by decide, by decide⟩
  simp [importGo, h]

/-- A concrete environment reporting `"Succeeded"` with an empty
`image_set` on every poll. -/
def importEnvEmptySet : ImportEnv where
  fetch _ := ImportFetch.detail "Succeeded" []
  resolve _ _ := ResolveResult.ioError

/-- Witness for C6: first poll of the 25-attempt loop. -/
theorem import_empty_image_set_witness :
    importGo importEnvEmptySet (24 + 1) 0 = (ImportOutcome.notImported, 1) ∧
    ImportOutcome.notImported ≠ ImportOutcome.timeout ∧
    ImportOutcome.notImported ≠ ImportOutcome.rejected :=
  import_empty_image_set importEnvEmptySet 24 0 rfl

/-- Outcome of one `algorithm_jobs.page(params=…, limit=1)[0]` call in the
job-polling loop: `IOError` or `IndexError` (an empty page) are both
caught by the same `except` clause; otherwise the job details carry a
`status` string and the `outputs` list handed to `_download_results` on
success (each output's `image` field is a URL or `None`). -/
inductive JobFetch where
  | fetchError : JobFetch
  | job (status : String) (outputs : List (Option String)) : JobFetch
deriving Repr, DecidableEq

/-- The remote side of the job-polling loop. -/
structure JobEnv where
  fetch : Nat → JobFetch

/-- How the job-polling loop terminates: `failed` is the
`RuntimeError('Algorithm … failed')` on status `Failed`/`Cancelled`;
`success outputs` is the `break` after `_download_results` is invoked on
the job's outputs; `timeout` is the `TimeoutError` from the `for` loop's
`else` clause. -/
inductive JobOutcome where
  | failed : JobOutcome
  | success (outputs : List (Option String)) : JobOutcome
  | timeout : JobOutcome
deriving Repr, DecidableEq

/-- The job-polling loop body of `run`, with the retry-slot count. -/
def jobGo (env : JobEnv) : Nat → Nat → JobOutcome × Nat
  | 0, _ => (JobOutcome.timeout, 0)
  | fuel + 1, i =>
    match env.fetch i with
    | JobFetch.fetchError =>
      let r := jobGo env fuel (i + 1)
      (r.1, r.2 + 1)
    | JobFetch.job status outputs =>
      if status = "Failed" ∨ status = "Cancelled" then
        (JobOutcome.failed, 1)
      else if status = "Succeeded" then
        (JobOutcome.success outputs, 1)
      else
        let r := jobGo env fuel (i + 1)
        (r.1, r.2 + 1)

/-- The driver's second `for _ in self.retries` loop. -/
def jobPoll (env : JobEnv) (attempts : Nat) : JobOutcome × Nat :=
  jobGo env attempts 0

/-- An import-loop fetch outcome that is non-terminal for the loop: an
I/O error, or a status other than `Failed`, `Cancelled` and
`Succeeded`. -/
def nonTerminalImport : ImportFetch → Prop
  | ImportFetch.ioError => True
  | ImportFetch.detail status _ =>
    status ≠ "Failed" ∧ status ≠ "Cancelled" ∧ status ≠ "Succeeded"

/-- A job-loop fetch outcome that is non-terminal for the loop. -/
def nonTerminalJob : JobFetch → Prop
  | JobFetch.fetchError => True
  | JobFetch.job status _ =>
    status ≠ "Failed" ∧ status ≠ "Cancelled" ∧ status ≠ "Succeeded"

theorem importGo_all_nonterminal (env : ImportEnv)
    (henv : ∀ j, nonTerminalImport (env.fetch j)) :
    ∀ (fuel i : Nat), importGo env fuel i = (ImportOutcome.timeout, fuel) := by
  intro fuel
  induction fuel with
  | zero => intro i; rfl
  | succ fuel ih =>
    intro i
    have h := henv i
    cases hf : env.fetch i with
    | ioError =>
      rw [importGo_ioError env fuel i hf, ih (i + 1)]
    | detail status imageSet =>
      rw [hf] at h
      obtain ⟨h1, h2, h3⟩ := h
      rw [importGo_other env fuel i status imageSet hf h1 h2 h3, ih (i + 1)]

theorem jobGo_all_nonterminal (env : JobEnv)
    (henv : ∀ j, nonTerminalJob (env.fetch j)) :
    ∀ (fuel i : Nat), jobGo env fuel i = (JobOutcome.timeout, fuel) := by
  intro fuel
  induction fuel with
  | zero => intro i; rfl
  | succ fuel ih =>
    intro i
    have h := henv i
    cases hf : env.fetch i with
    | fetchError =>
      simp only [jobGo, hf]
      rw [ih (i + 1)]
    | job status outputs =>
      rw [hf] at h
      obtain ⟨h1, h2, h3⟩ := h
      simp only [jobGo, hf, h1, h2, h3]
      simp only [or_self, if_false, ite_false]
      rw [ih (i + 1)]

/-- **C8.** In both polling phases, if every one of the `N` attempts sees
a non-terminal outcome (a transient fetch failure, or a status that is
none of `Succeeded`, `Failed`, `Cancelled`), the loop consumes all `N`
slots and raises the timeout condition, whose error kind is distinct from
the remote-rejection outcome of a `Failed`/`Cancelled` status. -/
theorem polling_exhaustion_timeout (ienv : ImportEnv) (jenv : JobEnv)
    (N : Nat)
    (hi : ∀ j, nonTerminalImport (ienv.fetch j))
    (hj : ∀ j, nonTerminalJob (jenv.fetch j)) :
    importPoll ienv N = (ImportOutcome.timeout, N) ∧
    jobPoll jenv N = (JobOutcome.timeout, N) ∧
    ImportOutcome.timeout ≠ ImportOutcome.rejected ∧
    JobOutcome.timeout ≠ JobOutcome.failed := by
  exact ⟨importGo_all_nonterminal ienv hi N 0,
         jobGo_all_nonterminal jenv hj N 0,
         by decide, by decide⟩

/-- A concrete import environment that always reports `"Queued"`. -/
def importEnvQueued : ImportEnv where
  fetch _ := ImportFetch.detail "Queued" []
  resolve _ _ := ResolveResult.ioError

/-- A concrete job environment that always raises a transient error. -/
def jobEnvTransient : JobEnv where
  fetch _ := JobFetch.fetchError

/-- Witness for C8 at `N = 25` on concrete environments. -/
theorem polling_exhaustion_timeout_witness :
    importPoll importEnvQueued 25 = (ImportOutcome.timeout, 25) ∧
    jobPoll jobEnvTransient 25 = (JobOutcome.timeout, 25) ∧
    ImportOutcome.timeout ≠ ImportOutcome.rejected ∧
    JobOutcome.timeout ≠ JobOutcome.failed :=
  polling_exhaustion_timeout importEnvQueued jobEnvTransient 25
    (fun _ => ⟨by decide, by decide, by decide⟩) (fun _ => trivial)

/-- Split a character list on a separator character; always returns at
least one (possibly empty) group. -/
def splitOnChar (c : Char) : List Char → List (List Char)
  | [] => [[]]
  | a :: rest =>
    match splitOnChar c rest with
    | [] => [[]]
    | g :: gs => if a = c then [] :: g :: gs else (a :: g) :: gs

/-- `pathlib.Path(filename).suffix`: the extension (with its dot) of the
last path component, empty when the name has no dot, when the name ends
in a dot, or when the only dot is the leading one of a hidden file. -/
def pathSuffix (filename : String) : String :=
  let name := (splitOnChar '/' filename.data).getLastD filename.data
  match splitOnChar '.' name with
  | [] => ""
  | [_] => ""
  | p :: ps =>
    let last := (p :: ps).getLastD []
    if last = [] then ""
    else if p = [] ∧ ps.length = 1 then ""
    else String.mk ('.' :: last)

/-- One entry of `image_details["files"]`: its declared `image_type` and
the URL of its raw content (`file["file"]`). -/
structure FileEntry where
  image_type : String
  file : String
deriving Repr, DecidableEq

/-- The part of `self.client(url=output["image"])`'s answer that
`_download_results` reads: the `files` listing. -/
structure ImageDetails where
  files : List FileEntry
deriving Repr, DecidableEq

/-- The remote side of `_download_results`: resolving an output's image
URL to its details, and fetching a file URL's raw byte content. -/
structure DownloadEnv where
  fetchImage : String → ImageDetails
  fetchFile : String → String

/-- The I/O actions `_download_results` can perform, in program order:
the image-detail network fetch, `parent.mkdir(parents=True,
exist_ok=True)`, opening the destination with `"wb"` (truncating it),
the file-content network fetch, and `fp.write` of that content. -/
inductive DLEvent where
  | fetchImage (url : String) : DLEvent
  | mkdirParents (path : String) : DLEvent
  | openTrunc (path : String) : DLEvent
  | fetchFile (url : String) : DLEvent
  | write (path : String) (content : String) : DLEvent
deriving Repr, DecidableEq

/-- How `_download_results` ends: a normal return (with or without having
written anything), or the `ValueError('Output file needs to have .mha
extension')`. -/
inductive DLResult where
  | ok : DLResult
  | valueError : DLResult
deriving Repr, DecidableEq

/-- The events of the match branch of the inner loop once a file with
`image_type == "MHD"` is reached and the extension check has passed:
create the parent directories, truncate-open the destination, fetch the
file's content, write it. -/
def mhdWriteEvents (env : DownloadEnv) (filename : String)
    (f : FileEntry) : List DLEvent :=
  [DLEvent.mkdirParents filename, DLEvent.openTrunc filename,
   DLEvent.fetchFile f.file,
   DLEvent.write filename (env.fetchFile f.file)]

/-- The inner `for file in image_details["files"]` loop of
`_download_results`. `none` means the loop ran off the end of the list
(no `MHD` entry) and control falls through to the next output; `some`
means the function terminated here - either the `ValueError` for a bad
extension, or a normal return after writing, with the events performed. -/
def scanFiles (env : DownloadEnv) (filename : String) :
    List FileEntry → Option (DLResult × List DLEvent)
  | [] => none
  | f :: rest =>
    if f.image_type ≠ "MHD" then scanFiles env filename rest
    else if pathSuffix filename ≠ ".mha" then
      some (DLResult.valueError, [])
    else
      some (DLResult.ok, mhdWriteEvents env filename f)

/-- `_download_results(outputs, filename)`: outputs with `image` equal to
`None` are skipped; for an output with an image URL the details are
fetched and its files scanned; the function returns after the first
write, and returns normally (without error and without writing) when no
output yields an `MHD` file. The value is the result paired with the
ordered event trace. -/
def downloadResults (env : DownloadEnv) (outputs : List (Option String))
    (filename : String) : DLResult × List DLEvent :=
  match outputs with
  | [] => (DLResult.ok, [])
  | none :: rest => downloadResults env rest filename
  | some url :: rest =>
    match scanFiles env filename (env.fetchImage url).files with
    | some (r, evs) => (r, DLEvent.fetchImage url :: evs)
    | none =>
      let r := downloadResults env rest filename
      (r.1, DLEvent.fetchImage url :: r.2)

/-- The file URL `_download_results` would persist: the first
`MHD`-typed file of the first image-bearing output that has one. -/
def firstMhdFile (env : DownloadEnv) : List (Option String) → Option String
  | [] => none
  | none :: rest => firstMhdFile env rest
  | some url :: rest =>
    match (env.fetchImage url).files.find?
        (fun f => f.image_type == "MHD") with
    | some f => some f.file
    | none => firstMhdFile env rest

/-- Does an event persist data or mutate the file system? -/
def isFsMutation : DLEvent → Bool
  | DLEvent.mkdirParents _ => true
  | DLEvent.openTrunc _ => true
  | DLEvent.write _ _ => true
  | _ => false

/-- Is an event a write of file content to the destination? -/
def isWrite : DLEvent → Bool
  | DLEvent.write _ _ => true
  | _ => false

theorem scanFiles_eq (env : DownloadEnv) (filename : String)
    (files : List FileEntry) :
    scanFiles env filename files =
      (files.find? (fun f => f.image_type == "MHD")).map
        (fun f =>
          if pathSuffix filename = ".mha" then
            (DLResult.ok, mhdWriteEvents env filename f)
          else
            (DLResult.valueError, ([] : List DLEvent))) := by
  induction files with
  | nil => rfl
  | cons f rest ih =>
    by_cases h : f.image_type = "MHD"
    · rw [List.find?_cons_of_pos _ (by simp [h])]
      by_cases hs : pathSuffix filename = ".mha"
      · simp [scanFiles, h, hs]
      · simp [scanFiles, h, hs]
    · rw [List.find?_cons_of_neg _ (by simp [h])]
      simp only [scanFiles, h, ne_eq, not_false_iff, if_true]
      exact ih

theorem pathSuffix_mha : pathSuffix "out/result.mha" = ".mha" := by decide

theorem pathSuffix_png : pathSuffix "result.png" = ".png" := by decide

theorem downloadResults_writes (env : DownloadEnv) (filename : String)
    (h : pathSuffix filename = ".mha") :
    ∀ outputs : List (Option String),
      (downloadResults env outputs filename).1 = DLResult.ok ∧
      (downloadResults env outputs filename).2.filter (fun e => isWrite e) =
        (match firstMhdFile env outputs with
         | none => []
         | some u => [DLEvent.write filename (env.fetchFile u)]) := by
  intro outputs
  induction outputs with
  | nil => exact ⟨rfl, rfl⟩
  | cons o rest ih =>
    cases o with
    | none =>
      simpa [downloadResults, firstMhdFile] using ih
    | some url =>
      have hs := scanFiles_eq env filename (env.fetchImage url).files
      cases hf : (env.fetchImage url).files.find?
          (fun f => f.image_type == "MHD") with
      | none =>
        rw [hf] at hs
        simp only [Option.map_none'] at hs
        refine ⟨?_, ?_⟩
        · simp only [downloadResults, hs]
          exact ih.1
        · simp only [downloadResults, hs, firstMhdFile, hf]
          simpa [isWrite] using ih.2
      | some f =>
        rw [hf] at hs
        simp only [Option.map_some', if_pos h] at hs
        refine ⟨?_, ?_⟩
        · simp [downloadResults, hs]
        · simp [downloadResults, hs, firstMhdFile, hf, mhdWriteEvents,
            isWrite]

/-- **C5.** If no output descriptor yields a file whose declared type is
`"MHD"`, `_download_results` returns normally - no error of any kind -
its event trace is exactly the image-detail fetches of the image-bearing
outputs, and in particular it contains no file-system mutation (no
directory creation, no truncation, no write). This holds for any
destination filename. -/
theorem download_no_mhd_silent (env : DownloadEnv)
    (outputs : List (Option String)) (filename : String)
    (hno : ∀ url : String, some url ∈ outputs →
      ∀ f ∈ (env.fetchImage url).files, f.image_type ≠ "MHD") :
    downloadResults env outputs filename =
      (DLResult.ok, (outputs.filterMap id).map DLEvent.fetchImage) ∧
    ∀ e ∈ (downloadResults env outputs filename).2, isFsMutation e = false := by
  have hmain : downloadResults env outputs filename =
      (DLResult.ok, (outputs.filterMap id).map DLEvent.fetchImage) := by
    induction outputs with
    | nil => rfl
    | cons o rest ih =>
      have hrest : ∀ url : String, some url ∈ rest →
          ∀ f ∈ (env.fetchImage url).files, f.image_type ≠ "MHD" :=
        fun url hu => hno url (List.mem_cons_of_mem _ hu)
      cases o with
      | none =>
        simpa [downloadResults] using ih hrest
      | some url =>
        have hfind : (env.fetchImage url).files.find?
            (fun f => f.image_type == "MHD") = none := by
          rw [List.find?_eq_none]
          intro f hf
          simpa using hno url (List.mem_cons_self _ _) f hf
        have hs := scanFiles_eq env filename (env.fetchImage url).files
        rw [hfind] at hs
        simp only [Option.map_none'] at hs
        simp only [downloadResults, hs, ih hrest, List.filterMap_cons]
        rfl
  refine ⟨hmain, ?_⟩
  intro e he
  rw [hmain] at he
  simp only [List.mem_map] at he
  obtain ⟨u, _, rfl⟩ := he
  rfl

/-- A download environment whose images only carry non-mask file types. -/
def downloadEnvNoMask : DownloadEnv where
  fetchImage _ := ⟨[⟨"JPEG", "jpeg-url"⟩, ⟨"TIFF", "tiff-url"⟩]⟩
  fetchFile _ := "bytes"

/-- Witness for C5 on a concrete output sequence with no `MHD` file. -/
theorem download_no_mhd_silent_witness :
    downloadResults downloadEnvNoMask [none, some "A", some "B"] "out.mha" =
      (DLResult.ok,
       (([none, some "A", some "B"] : List (Option String)).filterMap id).map
         DLEvent.fetchImage) ∧
    ∀ e ∈ (downloadResults downloadEnvNoMask [none, some "A", some "B"]
        "out.mha").2, isFsMutation e = false :=
  download_no_mhd_silent downloadEnvNoMask [none, some "A", some "B"]
    "out.mha"
    (by
      intro url _ f hf
      have hcases : f = ⟨"JPEG", "jpeg-url"⟩ ∨ f = ⟨"TIFF", "tiff-url"⟩ := by
        simpa [downloadEnvNoMask] using hf
      rcases hcases with rfl | rfl <;> decide)

theorem downloadResults_countWrites (env : DownloadEnv) (filename : String) :
    ∀ outputs : List (Option String),
      (downloadResults env outputs filename).2.countP (fun e => isWrite e)
        ≤ 1 := by
  intro outputs
  induction outputs with
  | nil => simp [downloadResults]
  | cons o rest ih =>
    cases o with
    | none => simpa [downloadResults] using ih
    | some url =>
      have hs := scanFiles_eq env filename (env.fetchImage url).files
      cases hf : (env.fetchImage url).files.find?
          (fun f => f.image_type == "MHD") with
      | none =>
        rw [hf] at hs
        simp only [Option.map_none'] at hs
        simp only [downloadResults, hs]
        simpa [List.countP_cons, isWrite] using ih
      | some f =>
        rw [hf] at hs
        simp only [Option.map_some'] at hs
        by_cases hsuf : pathSuffix filename = ".mha"
        · rw [if_pos hsuf] at hs
          simp [downloadResults, hs, mhdWriteEvents, List.countP_cons,
            isWrite]
        · rw [if_neg hsuf] at hs
          simp [downloadResults, hs, List.countP_cons, isWrite]

/-- The environment of the C9 scenario: output `X` lists a `JPEG` file
followed by the `MHD` file `Y`, whose content is `mask-bytes`. -/
def downloadEnvC9 : DownloadEnv where
  fetchImage _ := ⟨[⟨"JPEG", "jpeg-url"⟩, ⟨"MHD", "Y"⟩]⟩
  fetchFile _ := "mask-bytes"

/-- **C9.** On outputs `[{image: null}, {image: X with files
[{type: JPEG}, {type: MHD, file: Y}]}]` the download step writes exactly
`Y`'s content to the destination and returns right after that first `MHD`
match - the trace is the image fetch, the directory creation, the
truncate-open, the content fetch of `Y` and the single write; and for
every environment, output sequence and filename, the trace contains at
most one write. -/
theorem download_first_match_write :
    downloadResults downloadEnvC9 [none, some "X"] "out.mha" =
      (DLResult.ok,
       [DLEvent.fetchImage "X", DLEvent.mkdirParents "out.mha",
        DLEvent.openTrunc "out.mha", DLEvent.fetchFile "Y",
        DLEvent.write "out.mha" "mask-bytes"]) ∧
    ∀ (env : DownloadEnv) (outputs : List (Option String))
      (filename : String),
      (downloadResults env outputs filename).2.countP (fun e => isWrite e)
        ≤ 1 := by
  refine ⟨by decide, ?_⟩
  intro env outputs filename
  exact downloadResults_countWrites env filename outputs

/-- **C10.** If the first output descriptor carries an image whose file
listing has no `MHD`-typed entry, the download step does not stop there:
its outcome is that of scanning the remaining outputs (prefixed by the
image-detail fetch of the skipped output), and whenever some later output
does yield an `MHD` file (and the destination extension is valid), the
content of the first such file is written to the destination. -/
theorem download_continues_past_nonmhd (env : DownloadEnv) (u : String)
    (rest : List (Option String)) (filename : String)
    (hno : ∀ f ∈ (env.fetchImage u).files, f.image_type ≠ "MHD") :
    downloadResults env (some u :: rest) filename =
      ((downloadResults env rest filename).1,
       DLEvent.fetchImage u :: (downloadResults env rest filename).2) ∧
    (∀ furl : String, pathSuffix filename = ".mha" →
      firstMhdFile env rest = some furl →
      DLEvent.write filename (env.fetchFile furl) ∈
        (downloadResults env (some u :: rest) filename).2) := by
  have hfind : (env.fetchImage u).files.find?
      (fun f => f.image_type == "MHD") = none := by
    rw [List.find?_eq_none]
    intro f hf
    simpa using hno f hf
  have hs := scanFiles_eq env filename (env.fetchImage u).files
  rw [hfind] at hs
  simp only [Option.map_none'] at hs
  have hmain : downloadResults env (some u :: rest) filename =
      ((downloadResults env rest filename).1,
       DLEvent.fetchImage u :: (downloadResults env rest filename).2) := by
    simp [downloadResults, hs]
  refine ⟨hmain, ?_⟩
  intro furl hsuf hfirst
  have hw := (downloadResults_writes env filename hsuf rest).2
  rw [hfirst] at hw
  have hmemf : DLEvent.write filename (env.fetchFile furl) ∈
      (downloadResults env rest filename).2.filter (fun e => isWrite e) := by
    rw [hw]
    exact List.mem_singleton.mpr rfl
  have hmem := List.mem_of_mem_filter hmemf
  rw [hmain]
  exact List.mem_cons_of_mem _ hmem

/-- The environment of the C10 witness: output `U1` has only a `JPEG`
file, output `U2` has the `MHD` file `Z`. -/
def downloadEnvC10 : DownloadEnv where
  fetchImage url :=
    if url = "U1" then ⟨[⟨"JPEG", "jpeg-url"⟩]⟩ else ⟨[⟨"MHD", "Z"⟩]⟩
  fetchFile _ := "mask-bytes"

/-- Witness for C10: the first image-bearing output `U1` has no `MHD`
file, and the mask of the later output `U2` is written. -/
theorem download_continues_past_nonmhd_witness :
    downloadResults downloadEnvC10 [some "U1", some "U2"] "out.mha" =
      ((downloadResults downloadEnvC10 [some "U2"] "out.mha").1,
       DLEvent.fetchImage "U1" ::
         (downloadResults downloadEnvC10 [some "U2"] "out.mha").2) ∧
    DLEvent.write "out.mha" "mask-bytes" ∈
      (downloadResults downloadEnvC10 [some "U1", some "U2"] "out.mha").2 := by
  have h := download_continues_past_nonmhd downloadEnvC10 "U1" [some "U2"]
    "out.mha"
    (by
      intro f hf
      have hcases : f = ⟨"JPEG", "jpeg-url"⟩ := by
        simpa [downloadEnvC10] using hf
      subst hcases
      decide)
  exact ⟨h.1, h.2 "Z" (by decide) (by decide)⟩

/-- A download environment whose single output carries an `MHD` file. -/
def downloadEnvMask : DownloadEnv where
  fetchImage _ := ⟨[⟨"MHD", "Y"⟩]⟩
  fetchFile _ := "mask-bytes"

/-- **C2-counterexample.** With destination `"result.png"` (extension
`.png`, not `.mha`) and one output whose image carries an `MHD` file, the
`ValueError` is indeed raised - but only after the output's image-detail
network fetch has been performed, so the error is not raised "before any
I/O" and in particular not "before any network fetch" as claimed: the
trace already contains a network event. -/
theorem download_bad_extension_counterexample :
    (downloadResults downloadEnvMask [some "U"] "result.png").1 =
      DLResult.valueError ∧
    (downloadResults downloadEnvMask [some "U"] "result.png").2 =
      [DLEvent.fetchImage "U"] ∧
    DLEvent.fetchImage "U" ∈
      (downloadResults downloadEnvMask [some "U"] "result.png").2 :=
  ⟨by decide, by decide, by decide⟩

/-- **C2 (amended).** Whenever the destination extension differs from
`.mha`, the download step performs no file-system mutation and no
file-content fetch - every event of its trace is an image-detail network
fetch - and the configuration `ValueError` is raised if and only if the
scan encounters an `MHD`-typed file (the image-detail fetches preceding
that encounter do occur; with no `MHD` file anywhere the function returns
normally without raising). -/
theorem download_bad_extension (env : DownloadEnv)
    (outputs : List (Option String)) (filename : String)
    (h : pathSuffix filename ≠ ".mha") :
    (∀ e ∈ (downloadResults env outputs filename).2,
      ∃ u, e = DLEvent.fetchImage u) ∧
    ((downloadResults env outputs filename).1 = DLResult.valueError ↔
      (firstMhdFile env outputs).isSome = true) := by
  induction outputs with
  | nil =>
    constructor
    · intro e he
      simp [downloadResults] at he
    · simp [downloadResults, firstMhdFile]
  | cons o rest ih =>
    cases o with
    | none =>
      simpa [downloadResults, firstMhdFile] using ih
    | some url =>
      have hs := scanFiles_eq env filename (env.fetchImage url).files
      cases hf : (env.fetchImage url).files.find?
          (fun f => f.image_type == "MHD") with
      | none =>
        rw [hf] at hs
        simp only [Option.map_none'] at hs
        constructor
        · intro e he
          simp only [downloadResults, hs, List.mem_cons] at he
          rcases he with rfl | he
          · exact ⟨url, rfl⟩
          · exact ih.1 e he
        · simp only [downloadResults, hs, firstMhdFile, hf]
          exact ih.2
      | some f =>
        rw [hf] at hs
        simp only [Option.map_some', if_neg h] at hs
        constructor
        · intro e he
          simp only [downloadResults, hs, List.mem_cons] at he
          rcases he with rfl | he
          · exact ⟨url, rfl⟩
          · simp at he
        · simp [downloadResults, hs, firstMhdFile, hf]

/-- Witness for the amended C2 at the counterexample's concrete input. -/
theorem download_bad_extension_witness :
    (pathSuffix "result.png" ≠ ".mha") ∧
    (∀ e ∈ (downloadResults downloadEnvMask [some "U"] "result.png").2,
      ∃ u, e = DLEvent.fetchImage u) ∧
    ((downloadResults downloadEnvMask [some "U"] "result.png").1 =
        DLResult.valueError ↔
      (firstMhdFile downloadEnvMask [some "U"]).isSome = true) :=
  ⟨by decide,
   download_bad_extension downloadEnvMask [some "U"] "result.png" (by decide)⟩

/-- Python's `int(x)` on a number: truncation toward zero. -/
def pyInt (q : ℚ) : ℤ :=
  if 0 ≤ q then ⌊q⌋ else ⌈q⌉

/-- The headstart computation of `GrandChallengeAlgorithm.__init__`:
`average_duration` is the value of the algorithm record's
`average_duration` field (`none` models JSON `null`/absence); when it is
truthy (non-`None` and non-zero) the headstart is
`int(average_duration * 0.75)` (the float `0.75` is exactly `3/4`),
otherwise the fixed 30-second default. -/
def computeHeadstart (average_duration : Option ℚ) : ℤ :=
  match average_duration with
  | none => 30
  | some d => if d ≠ 0 then pyInt (d * (3 / 4)) else 30

/-- **C7.** At construction the headstart is 75% of the algorithm's
historical average run duration when that average is known and truthy -
`average_duration = 100` gives headstart `75`, and in general the
headstart is the integer truncation of `0.75 · d`, within 1 below it -
and it is the fixed 30-second default when the average is absent or 0. -/
theorem headstart_spec :
    computeHeadstart (some 100) = 75 ∧
    computeHeadstart none = 30 ∧
    computeHeadstart (some 0) = 30 ∧
    (∀ d : ℚ, 0 < d →
      computeHeadstart (some d) = ⌊d * (3 / 4)⌋ ∧
      ((computeHeadstart (some d) : ℚ) ≤ d * (3 / 4) ∧
       d * (3 / 4) - 1 < (computeHeadstart (some d) : ℚ))) := by
  refine ⟨?_, rfl, by norm_num [computeHeadstart], ?_⟩
  · norm_num [computeHeadstart, pyInt]
  · intro d hd
    have hne : d ≠ 0 := ne_of_gt hd
    have hnn : (0 : ℚ) ≤ d * (3 / 4) := by positivity
    have hval : computeHeadstart (some d) = ⌊d * (3 / 4)⌋ := by
      simp [computeHeadstart, pyInt, hne, hnn]
    refine ⟨hval, ?_, ?_⟩
    · rw [hval]
      exact Int.floor_le _
    · rw [hval]
      have := Int.lt_floor_add_one (d * (3 / 4))
      linarith [Int.lt_floor_add_one (d * (3 / 4))]

/-- Witness for C7's general clause at `d = 100`. -/
theorem headstart_spec_witness :
    ((0 : ℚ) < 100) ∧
    computeHeadstart (some 100) = ⌊(100 : ℚ) * (3 / 4)⌋ ∧
    ((computeHeadstart (some 100) : ℚ) ≤ (100 : ℚ) * (3 / 4) ∧
     (100 : ℚ) * (3 / 4) - 1 < (computeHeadstart (some 100) : ℚ)) :=
  ⟨by norm_num, headstart_spec.2.2.2 100 (by norm_num)⟩
